import Mathlib

/-!
Verification development for the `gh-repo-transfer` repository.

We shallowly embed the migration-validation engine (internal/validation),
the batch analysis cache (internal/batch/batch.go), the org-level policy
separation (output layer) and the ruleset target resolvers, and prove the
frozen claims about them.

Go strings are modelled as `List Char` (`GoStr`); the functions from the
Go `strings` package that the code uses (`Contains`, `HasPrefix`,
`TrimPrefix`, `Split`, `ToLower`, `EqualFold`, `Index`, `Join`) are given
executable Lean counterparts with Go semantics.  `strings.ToLower` and
`strings.EqualFold` perform Unicode case mapping in Go; we model them with
per-character ASCII lowering, which coincides with Go on the ASCII data the
program manipulates.  Network-bound analyzers are abstracted as oracle
parameters; every other function is translated from the source line by
line.
-/

/-- A Go string, modelled as its list of characters. -/
abbrev GoStr := List Char

/-- Embed a Lean string literal as a `GoStr`. -/
def gs (s : String) : GoStr := s.data

/-- The single-quote character (U+0027), used inside several Go message strings. -/
def sqc : Char := Char.ofNat 39

/-- Go `strings.HasPrefix s pre`. -/
def goStartsWith : GoStr → GoStr → Bool
  | _, [] => true
  | [], _ :: _ => false
  | c :: s, d :: p => (c == d) && goStartsWith s p

/-- Go `strings.Contains s sub`. -/
def goContains : GoStr → GoStr → Bool
  | [], sub => goStartsWith [] sub
  | c :: rest, sub => goStartsWith (c :: rest) sub || goContains rest sub

/-- Go `strings.Index s sub`, as an `Option Nat` (`none` encodes `-1`). -/
def goIndexOf : GoStr → GoStr → Option Nat
  | s, sub =>
    if goStartsWith s sub then some 0
    else
      match s with
      | [] => none
      | _ :: rest => (goIndexOf rest sub).map (· + 1)

/-- Go `strings.TrimPrefix s pre`: drop `pre` when it is a prefix, else return `s`. -/
def goTrimPre (s pre : GoStr) : GoStr :=
  if goStartsWith s pre then s.drop pre.length else s

/-- Worker for `goSplit`: structural recursion on a fuel bounded by the
string length (each step consumes at least one character, so the fuel
never runs out when initialised with the length of the string). -/
def goSplitAux (sep : GoStr) : Nat → GoStr → GoStr → List GoStr
  | _, acc, [] => [acc.reverse]
  | 0, acc, s => [acc.reverse ++ s]
  | fuel + 1, acc, c :: rest =>
    if goStartsWith (c :: rest) sep then
      acc.reverse :: goSplitAux sep fuel [] (rest.drop (sep.length - 1))
    else
      goSplitAux sep fuel (c :: acc) rest

/-- Go `strings.Split s sep`: split around each non-overlapping instance of
`sep`; with an empty separator Go explodes the string into characters. -/
def goSplit (s sep : GoStr) : List GoStr :=
  if sep.isEmpty then s.map (fun c => [c]) else goSplitAux sep s.length [] s

/-- Go `strings.ToLower` (ASCII case mapping; coincides with Go on ASCII data). -/
def goToLower (s : GoStr) : GoStr := s.map Char.toLower

/-- Go `strings.EqualFold` (case-insensitive equality; ASCII model). -/
def goEqualFold (s t : GoStr) : Bool := goToLower s == goToLower t

/-- Go `strings.Join`. -/
def goJoin : List GoStr → GoStr → GoStr
  | [], _ => []
  | [x], _ => x
  | x :: y :: rest, sep => x ++ sep ++ goJoin (y :: rest) sep

/-- Decimal rendering of a count, for Go `fmt.Sprintf` with `%d`. -/
def natToGoStr (n : Nat) : GoStr := Nat.toDigits 10 n

/-!
## Data model (internal/types/types.go)

Field names and order follow the Go struct declarations.  Go zero values
correspond to the derived `Inhabited` defaults (`[]` for strings and
slices, `false`, `0`, `none`).  Counter fields are Go `int`s that are only
ever incremented from zero, so they are modelled as `Nat`.
-/

/-- Go `type ValidationStatus string`. -/
abbrev ValidationStatus := GoStr

/-- Constant `ValidationReady`. -/
def validationReady : ValidationStatus := gs "ready"

/-- Constant `ValidationSetupNeeded`. -/
def validationSetupNeeded : ValidationStatus := gs "setup_needed"

/-- Constant `ValidationBlocker`. -/
def validationBlocker : ValidationStatus := gs "blocker"

/-- Constant `ValidationWarning`. -/
def validationWarning : ValidationStatus := gs "warning"

/-- Constant `ValidationReview`. -/
def validationReview : ValidationStatus := gs "review"

/-- Constant `ValidationUnknown`. -/
def validationUnknown : ValidationStatus := gs "unknown"

/-- Go struct `ValidationResult`. -/
structure ValidationResult where
  Item : GoStr
  Status : ValidationStatus
  Message : GoStr
  Recommendation : GoStr
  deriving DecidableEq, Inhabited

/-- Go struct `ValidationSummary`. -/
structure ValidationSummary where
  Ready : Nat
  SetupNeeded : Nat
  Blockers : Nat
  Warnings : Nat
  Review : Nat
  Unknown : Nat
  Total : Nat
  deriving DecidableEq, Inhabited

/-- Go struct `MigrationValidation`. -/
structure MigrationValidation where
  TargetOrganization : GoStr
  OverallReadiness : ValidationStatus
  Summary : ValidationSummary
  CodeDependencies : List ValidationResult
  CIDependencies : List ValidationResult
  AccessPermissions : List ValidationResult
  SecurityCompliance : List ValidationResult
  AppsIntegrations : List ValidationResult
  Governance : List ValidationResult
  deriving DecidableEq, Inhabited

/-- Go struct `OrgPolicy`. -/
structure OrgPolicy where
  Name : GoStr
  Status : GoStr
  Restrictions : List GoStr
  deriving DecidableEq, Inhabited

/-- Go struct `OrgMemberPrivileges`. -/
structure OrgMemberPrivileges where
  CanCreateRepos : Bool
  CanForkPrivateRepos : Bool
  TwoFactorRequired : Bool
  WebCommitSignoffRequired : Bool
  DefaultPermission : GoStr
  RestrictionsActive : List GoStr
  deriving DecidableEq, Inhabited

/-- Go struct `TargetOrgCapabilities`. -/
structure TargetOrgCapabilities where
  Organization : GoStr
  Apps : List GoStr
  Teams : List GoStr
  RepositoryPolicies : List OrgPolicy
  MemberPrivileges : OrgMemberPrivileges
  Rulesets : List GoStr
  Secrets : List GoStr
  Variables : List GoStr
  Runners : List GoStr
  deriving DecidableEq, Inhabited

/-- Go struct `CodeDependencies`. -/
structure CodeDependencies where
  InternalRepositoryReferences : List GoStr
  GitSubmodules : List GoStr
  OrgPackageRegistries : List GoStr
  HardcodedOrgReferences : List GoStr
  OrgSpecificContainerRegistries : List GoStr
  deriving DecidableEq, Inhabited

/-- Go struct `ActionsCIDependencies`. -/
structure ActionsCIDependencies where
  OrganizationSecrets : List GoStr
  OrganizationVariables : List GoStr
  SelfHostedRunners : List GoStr
  EnvironmentDependencies : List GoStr
  OrgSpecificActions : List GoStr
  RequiredWorkflows : List GoStr
  CrossRepoWorkflowTriggers : List GoStr
  deriving DecidableEq, Inhabited

/-- Go struct `AccessPermissions`. -/
structure AccessPermissions where
  Teams : List GoStr
  IndividualCollaborators : List GoStr
  OrganizationRoles : List GoStr
  OrganizationMembership : List GoStr
  CodeownersRequirements : List GoStr
  deriving DecidableEq, Inhabited

/-- Go struct `SecurityCompliance`. -/
structure SecurityCompliance where
  SecurityCampaigns : List GoStr
  deriving DecidableEq, Inhabited

/-- Go struct `AppsIntegrations`. -/
structure AppsIntegrations where
  InstalledGitHubApps : List GoStr
  PersonalAccessTokens : List GoStr
  deriving DecidableEq, Inhabited

/-- Go struct `OrgAppsIntegrations` (batch cache of org-level app data). -/
structure OrgAppsIntegrations where
  InstalledGitHubApps : List GoStr
  deriving DecidableEq, Inhabited

/-- Go struct `OrgGovernance`. -/
structure OrgGovernance where
  OrganizationPolicies : List OrgPolicy
  RepositoryPolicies : List OrgPolicy
  MemberPrivileges : List GoStr
  RepositoryRulesets : List OrgPolicy
  IssueTemplates : List GoStr
  PullRequestTemplates : List GoStr
  RequiredStatusChecks : List GoStr
  deriving DecidableEq, Inhabited

/-- Go struct `OrganizationalDependencies`. -/
structure OrganizationalDependencies where
  Repository : GoStr
  CodeDependencies : CodeDependencies
  ActionsCIDependencies : ActionsCIDependencies
  AccessPermissions : AccessPermissions
  SecurityCompliance : SecurityCompliance
  AppsIntegrations : AppsIntegrations
  OrgGovernance : OrgGovernance
  Validation : Option MigrationValidation
  deriving DecidableEq, Inhabited

/-!
## Migration Validation Engine (internal/validation, src/unnamed/part_006)

Each Go `for ... append` loop over an input list whose body appends a fixed
number of results per element is translated as `List.map` (exactly one
result per element) or `List.flatMap` (zero or one results per element);
Go `for ... return` search loops become `List.any`.
-/

/-- `extractAppName`: the part of the formatted string before the first `" ("`. -/
def extractAppName (appString : GoStr) : GoStr :=
  match goIndexOf appString (gs " (") with
  | some idx => appString.take idx
  | none => appString

/-- `extractTeamName`: the part of the formatted string before the first `" ("`. -/
def extractTeamName (teamString : GoStr) : GoStr :=
  match goIndexOf teamString (gs " (") with
  | some idx => teamString.take idx
  | none => teamString

/-- `extractSecretName` (identity in the source). -/
def extractSecretName (secretString : GoStr) : GoStr := secretString

/-- `extractVariableName` (identity in the source). -/
def extractVariableName (variableString : GoStr) : GoStr := variableString

/-- `extractRunnerName` (identity in the source). -/
def extractRunnerName (runnerString : GoStr) : GoStr := runnerString

/-- `isAppAvailable`: case-insensitive membership in the available app list. -/
def isAppAvailable (appName : GoStr) (availableApps : List GoStr) : Bool :=
  availableApps.any fun available => goEqualFold appName available

/-- `isCommonApp`: the lowered name contains one of four fixed substrings. -/
def isCommonApp (appName : GoStr) : Bool :=
  [gs "dependabot", gs "github-actions", gs "codecov", gs "sonarcloud"].any
    fun common => goContains (goToLower appName) common

/-- `isTeamAvailable`: case-insensitive membership in the available team list. -/
def isTeamAvailable (teamName : GoStr) (availableTeams : List GoStr) : Bool :=
  availableTeams.any fun available => goEqualFold teamName available

/-- `isSecretAvailable`. -/
def isSecretAvailable (secretName : GoStr) (availableSecrets : List GoStr) : Bool :=
  availableSecrets.any fun available => goEqualFold secretName available

/-- `isVariableAvailable`. -/
def isVariableAvailable (variableName : GoStr) (availableVariables : List GoStr) : Bool :=
  availableVariables.any fun available => goEqualFold variableName available

/-- `isRunnerAvailable`. -/
def isRunnerAvailable (runnerName : GoStr) (availableRunners : List GoStr) : Bool :=
  availableRunners.any fun available => goEqualFold runnerName available

/-- `validateAppsIntegrations`: one result per installed app. -/
def validateAppsIntegrations (apps : AppsIntegrations)
    (capabilities : TargetOrgCapabilities) : List ValidationResult :=
  apps.InstalledGitHubApps.map fun app =>
    let appName := extractAppName app
    if isAppAvailable appName capabilities.Apps then
      { Item := app, Status := validationReady,
        Message := gs "App is available in target organization",
        Recommendation := [] }
    else if isCommonApp appName then
      { Item := app, Status := validationSetupNeeded,
        Message := gs "Standard app, can be installed",
        Recommendation := gs "Install " ++ appName ++ gs " in target organization" }
    else
      { Item := app, Status := validationBlocker,
        Message := gs "Custom app, requires manual setup",
        Recommendation := gs "Review app requirements and setup in target org" }

/-- The `"Team: @"` marker used by the CODEOWNERS requirement parser. -/
def teamAtPre : GoStr := gs "Team: @"

/-- The `"User: @"` marker used by the CODEOWNERS requirement parser. -/
def userAtPre : GoStr := gs "User: @"

/-- The CODEOWNERS branch of `validateAccessPermissions`: zero or one
result per requirement string (a `"Team: @org/team"` item whose reference
does not split into exactly two segments, or an item with neither marker,
appends nothing). -/
def codeownersResult (capabilities : TargetOrgCapabilities)
    (requirement : GoStr) : List ValidationResult :=
  if goStartsWith requirement teamAtPre then
    let teamRef := goTrimPre requirement teamAtPre
    let parts := goSplit teamRef (gs "/")
    if parts.length = 2 then
      let teamName := parts.getD 1 []
      if isTeamAvailable teamName capabilities.Teams then
        [{ Item := requirement, Status := validationReady,
           Message := gs "CODEOWNERS team exists in target organization",
           Recommendation := [] }]
      else
        [{ Item := requirement, Status := validationBlocker,
           Message := gs "CODEOWNERS team does not exist in target organization",
           Recommendation := gs "Create team " ++ [sqc] ++ teamName ++ [sqc] ++
             gs " in target organization or update CODEOWNERS" }]
    else []
  else if goStartsWith requirement userAtPre then
    [{ Item := requirement, Status := validationWarning,
       Message := gs "CODEOWNERS user requires manual setup in target organization",
       Recommendation := gs "Invite user to target organization or update CODEOWNERS" }]
  else []

/-- `validateAccessPermissions`: teams, then individual collaborators, then
CODEOWNERS requirements.  The `assignTeams` parameter is accepted but never
read, exactly as in the source. -/
def validateAccessPermissions (access : AccessPermissions)
    (capabilities : TargetOrgCapabilities) (assignTeams : Bool) : List ValidationResult :=
  (access.Teams.map fun team =>
    let teamName := extractTeamName team
    if isTeamAvailable teamName capabilities.Teams then
      { Item := team, Status := validationReady,
        Message := gs "Team exists in target organization",
        Recommendation := [] }
    else
      { Item := team, Status := validationBlocker,
        Message := gs "Team does not exist in target organization",
        Recommendation := gs "Create team " ++ [sqc] ++ teamName ++ [sqc] ++
          gs " in target organization" }) ++
  (access.IndividualCollaborators.map fun collaborator =>
    { Item := collaborator, Status := validationWarning,
      Message := gs "Individual access requires manual setup in target organization",
      Recommendation := gs "Invite user to target organization and configure permissions" }) ++
  access.CodeownersRequirements.flatMap (codeownersResult capabilities)

/-- `validateCIDependencies`: secrets, variables, runners, required workflows. -/
def validateCIDependencies (ci : ActionsCIDependencies)
    (capabilities : TargetOrgCapabilities) : List ValidationResult :=
  (ci.OrganizationSecrets.map fun secret =>
    let secretName := extractSecretName secret
    if isSecretAvailable secretName capabilities.Secrets then
      { Item := secret, Status := validationReady,
        Message := gs "Secret exists in target organization",
        Recommendation := [] }
    else
      { Item := secret, Status := validationSetupNeeded,
        Message := gs "Secret needs to be created in target organization",
        Recommendation := gs "Create secret " ++ [sqc] ++ secretName ++ [sqc] ++
          gs " in target organization" }) ++
  (ci.OrganizationVariables.map fun varItem =>
    let variableName := extractVariableName varItem
    if isVariableAvailable variableName capabilities.Variables then
      { Item := varItem, Status := validationReady,
        Message := gs "Variable exists in target organization",
        Recommendation := [] }
    else
      { Item := varItem, Status := validationSetupNeeded,
        Message := gs "Variable needs to be created in target organization",
        Recommendation := gs "Create variable " ++ [sqc] ++ variableName ++ [sqc] ++
          gs " in target organization" }) ++
  (ci.SelfHostedRunners.map fun runner =>
    let runnerName := extractRunnerName runner
    if isRunnerAvailable runnerName capabilities.Runners then
      { Item := runner, Status := validationReady,
        Message := gs "Runner is available in target organization",
        Recommendation := [] }
    else
      { Item := runner, Status := validationSetupNeeded,
        Message := gs "Self-hosted runner needs to be set up",
        Recommendation := gs "Configure runner " ++ [sqc] ++ runnerName ++ [sqc] ++
          gs " in target organization" }) ++
  (ci.RequiredWorkflows.map fun workflow =>
    { Item := workflow, Status := validationReview,
      Message := gs "Required workflow policy needs manual configuration",
      Recommendation := gs "Set up equivalent required workflow policy in target organization" })

/-- The five member-privilege keywords of `isMemberPrivilegePolicy`. -/
def memberPrivilegeKeywords : List GoStr :=
  [gs "member management", gs "repository creation", gs "private repository forking",
   gs "two-factor authentication", gs "web commit signoff"]

/-- `isMemberPrivilegePolicy` (internal/validation): keyword search over the
lowered policy name, then over every lowered restriction string.  Note that
this copy, used by `validateGovernance`, has no early return for names
containing the substring `"policy"`. -/
def isMemberPrivilegePolicy (policy : OrgPolicy) : Bool :=
  (memberPrivilegeKeywords.any fun keyword =>
    goContains (goToLower policy.Name) keyword) ||
  (policy.Restrictions.any fun restriction =>
    memberPrivilegeKeywords.any fun keyword =>
      goContains (goToLower restriction) keyword)

/-- The restriction-matching accumulator of `validateMemberPrivilegePolicy`
(`switch` over the lowered restriction, appending one missing-restriction
message per unsatisfied requirement). -/
def missingRestrictionStep (targetPrivileges : OrgMemberPrivileges)
    (acc : List GoStr) (restriction : GoStr) : List GoStr :=
  let restrictionLower := goToLower restriction
  if goContains restrictionLower (gs "repository creation restricted") then
    if targetPrivileges.CanCreateRepos then
      acc ++ [gs "Repository creation needs to be restricted"]
    else acc
  else if goContains restrictionLower (gs "private repository forking restricted") then
    if targetPrivileges.CanForkPrivateRepos then
      acc ++ [gs "Private repository forking needs to be restricted"]
    else acc
  else if goContains restrictionLower (gs "two-factor authentication required") then
    if !targetPrivileges.TwoFactorRequired then
      acc ++ [gs "Two-factor authentication needs to be required"]
    else acc
  else if goContains restrictionLower (gs "web commit signoff required") then
    if !targetPrivileges.WebCommitSignoffRequired then
      acc ++ [gs "Web commit signoff needs to be required"]
    else acc
  else acc

/-- `validateMemberPrivilegePolicy`. -/
def validateMemberPrivilegePolicy (policy : OrgPolicy)
    (targetPrivileges : OrgMemberPrivileges) : ValidationResult :=
  let missingRestrictions :=
    policy.Restrictions.foldl (missingRestrictionStep targetPrivileges) []
  let item := policy.Name ++ gs " (status: " ++ policy.Status ++ gs ")"
  if missingRestrictions.length = 0 then
    { Item := item, Status := validationReady,
      Message := gs "Member privilege settings meet policy requirements",
      Recommendation := [] }
  else if missingRestrictions.length < policy.Restrictions.length then
    { Item := item, Status := validationSetupNeeded,
      Message := gs "Some member privileges need adjustment (" ++
        natToGoStr missingRestrictions.length ++ gs " missing)",
      Recommendation := gs "Configure missing restrictions: " ++
        goJoin missingRestrictions (gs ", ") }
  else
    { Item := item, Status := validationSetupNeeded,
      Message := gs "Member privileges need configuration to meet policy requirements",
      Recommendation := gs "Configure required restrictions: " ++
        goJoin missingRestrictions (gs ", ") }

/-- `validateRepositoryPolicy`: a case-insensitive name match against any
target policy yields a review result, otherwise setup is needed. -/
def validateRepositoryPolicy (policy : OrgPolicy)
    (targetPolicies : List OrgPolicy) : ValidationResult :=
  let item := policy.Name ++ gs " (status: " ++ policy.Status ++ gs ")"
  if targetPolicies.any fun targetPolicy => goEqualFold policy.Name targetPolicy.Name then
    { Item := item, Status := validationReview,
      Message := gs "Similar repository policy found, requires verification",
      Recommendation := gs "Verify policy configuration matches requirements" }
  else
    { Item := item, Status := validationSetupNeeded,
      Message := gs "Repository policy needs to be configured",
      Recommendation := gs "Set up " ++ [sqc] ++ policy.Name ++ [sqc] ++
        gs " repository policy in target organization" }

/-- `validateGovernance`: organization policies (routed through the
member-privilege heuristic), then issue templates, then PR templates. -/
def validateGovernance (governance : OrgGovernance)
    (capabilities : TargetOrgCapabilities) : List ValidationResult :=
  (governance.OrganizationPolicies.map fun policy =>
    if isMemberPrivilegePolicy policy then
      validateMemberPrivilegePolicy policy capabilities.MemberPrivileges
    else
      validateRepositoryPolicy policy capabilities.RepositoryPolicies) ++
  (governance.IssueTemplates.map fun template =>
    { Item := template, Status := validationReview,
      Message := gs "Issue template requires manual setup",
      Recommendation := gs "Copy template to target organization" ++ [sqc] ++
        gs "s .github repository" }) ++
  (governance.PullRequestTemplates.map fun template =>
    { Item := template, Status := validationReview,
      Message := gs "PR template requires manual setup",
      Recommendation := gs "Copy template to target organization" ++ [sqc] ++
        gs "s .github repository" })

/-- `validateCodeDependencies`: one review result per git submodule. -/
def validateCodeDependencies (code : CodeDependencies)
    (_capabilities : TargetOrgCapabilities) : List ValidationResult :=
  code.GitSubmodules.map fun submodule =>
    if goContains submodule (gs "external dependency") then
      { Item := submodule, Status := validationReview,
        Message := gs "External repository access needs verification",
        Recommendation := gs "Verify target organization has access to this external repository" }
    else
      { Item := submodule, Status := validationReview,
        Message := gs "Internal submodule, may need access setup",
        Recommendation := gs "Ensure target org has access to submodule repository" }

/-- `validateSecurityCompliance`: one review result per security campaign. -/
def validateSecurityCompliance (security : SecurityCompliance)
    (_capabilities : TargetOrgCapabilities) : List ValidationResult :=
  security.SecurityCampaigns.map fun campaign =>
    { Item := campaign, Status := validationReview,
      Message := gs "Security campaign requires manual setup",
      Recommendation := gs "Configure equivalent security measures in target organization" }

/-- The result concatenation built by `calculateSummary` (`allResults`),
in the append order of the source. -/
def allValidationResults (validation : MigrationValidation) : List ValidationResult :=
  validation.AppsIntegrations ++ validation.AccessPermissions ++
  validation.CIDependencies ++ validation.Governance ++
  validation.CodeDependencies ++ validation.SecurityCompliance

/-- One iteration of the counting loop in `calculateSummary`: `Total` is
always incremented, then the `switch` on the status increments exactly one
of the six counters (`default` feeds `Unknown`). -/
def summaryStep (summary : ValidationSummary) (result : ValidationResult) : ValidationSummary :=
  let s := { summary with Total := summary.Total + 1 }
  if result.Status = validationReady then { s with Ready := s.Ready + 1 }
  else if result.Status = validationSetupNeeded then { s with SetupNeeded := s.SetupNeeded + 1 }
  else if result.Status = validationBlocker then { s with Blockers := s.Blockers + 1 }
  else if result.Status = validationWarning then { s with Warnings := s.Warnings + 1 }
  else if result.Status = validationReview then { s with Review := s.Review + 1 }
  else { s with Unknown := s.Unknown + 1 }

/-- `calculateSummary`. -/
def calculateSummary (validation : MigrationValidation) : ValidationSummary :=
  (allValidationResults validation).foldl summaryStep
    { Ready := 0, SetupNeeded := 0, Blockers := 0, Warnings := 0,
      Review := 0, Unknown := 0, Total := 0 }

/-- `determineOverallReadiness`. -/
def determineOverallReadiness (summary : ValidationSummary) : ValidationStatus :=
  if summary.Blockers > 0 then validationBlocker
  else if summary.SetupNeeded > 0 ∨ summary.Review > 0 then validationSetupNeeded
  else if summary.Warnings > 0 then validationWarning
  else if summary.Ready = summary.Total then validationReady
  else validationUnknown

/-- `ValidateAgainstTarget`: build the six category lists, then derive the
summary and the overall readiness.  The struct literal in the source zeroes
`OverallReadiness` (empty string) before it is overwritten. -/
def ValidateAgainstTarget (deps : OrganizationalDependencies)
    (capabilities : TargetOrgCapabilities) (assignTeams : Bool) : MigrationValidation :=
  let validation : MigrationValidation :=
    { TargetOrganization := capabilities.Organization
      OverallReadiness := []
      Summary := { Ready := 0, SetupNeeded := 0, Blockers := 0, Warnings := 0,
                   Review := 0, Unknown := 0, Total := 0 }
      AppsIntegrations := validateAppsIntegrations deps.AppsIntegrations capabilities
      AccessPermissions := validateAccessPermissions deps.AccessPermissions capabilities assignTeams
      CIDependencies := validateCIDependencies deps.ActionsCIDependencies capabilities
      Governance := validateGovernance deps.OrgGovernance capabilities
      CodeDependencies := validateCodeDependencies deps.CodeDependencies capabilities
      SecurityCompliance := validateSecurityCompliance deps.SecurityCompliance capabilities }
  let summary := calculateSummary validation
  { validation with Summary := summary,
                    OverallReadiness := determineOverallReadiness summary }

/-!
## Org-level policy separation (output layer, src/unnamed/part_007)
-/

/-- `isMemberPrivilegePolicyOrgLevel` (output layer): unlike the copy in
the validation package, this one first returns `false` for any policy whose
lowered name contains `"policy"` unless the name is literally
`"Member Management Policy"`; only then does it run the keyword search. -/
def isMemberPrivilegePolicyOrgLevel (policy : OrgPolicy) : Bool :=
  if goContains (goToLower policy.Name) (gs "policy") &&
     !(policy.Name == gs "Member Management Policy") then
    false
  else
    (memberPrivilegeKeywords.any fun keyword =>
      goContains (goToLower policy.Name) keyword) ||
    (policy.Restrictions.any fun restriction =>
      memberPrivilegeKeywords.any fun keyword =>
        goContains (goToLower restriction) keyword)

/-!
## Structured Ruleset Target Resolver (governance scan, src/unnamed/part_008)

The Go function takes an inline-declared ruleset struct; only its
`Conditions.RepositoryName` fields are read.  The dynamically typed
`Rules[].Parameters` JSON payload is not read by the resolver and is left
out of the embedding.
-/

/-- Ruleset `conditions.ref_name`. -/
structure RefNameConditions where
  Include : List GoStr
  Exclude : List GoStr
  deriving DecidableEq, Inhabited

/-- Ruleset `conditions.repository_name`. -/
structure RepositoryNameConditions where
  Include : List GoStr
  Exclude : List GoStr
  Protected : Bool
  deriving DecidableEq, Inhabited

/-- Ruleset `conditions.repository_property`. -/
structure RepositoryPropertyConditions where
  Include : List GoStr
  Exclude : List GoStr
  deriving DecidableEq, Inhabited

/-- Ruleset `conditions`. -/
structure RulesetConditions where
  RefName : RefNameConditions
  RepositoryName : RepositoryNameConditions
  RepositoryProperty : RepositoryPropertyConditions
  deriving DecidableEq, Inhabited

/-- The org-level ruleset record consumed by the structured resolver. -/
structure OrgRuleset where
  ID : Int
  Name : GoStr
  Enforcement : GoStr
  Source : GoStr
  Target : GoStr
  Conditions : RulesetConditions
  deriving DecidableEq, Inhabited

/-- The per-entry match used by both resolvers: literal equality with the
resource name, or the entry containing the character `*` anywhere. -/
def entryMatches (repo entry : GoStr) : Bool :=
  entry == repo || goContains entry (gs "*")

/-- The include loop of the structured resolver: at the first matching
include entry the exclude list is scanned (`return false` on an exclude
match, `return true` after the loop); if no include entry matches the loop
falls through. -/
def includeLoop (excludes : List GoStr) (repo : GoStr) : List GoStr → Option Bool
  | [] => none
  | target :: rest =>
    if entryMatches repo target then
      some (!(excludes.any (entryMatches repo)))
    else includeLoop excludes repo rest

namespace Deps

/-- `rulesetAppliesToRepo` (governance scan, structured conditions). -/
def rulesetAppliesToRepo (ruleset : OrgRuleset) (repo : GoStr) : Bool :=
  if ruleset.Conditions.RepositoryName.Include.length > 0 then
    match includeLoop ruleset.Conditions.RepositoryName.Exclude repo
        ruleset.Conditions.RepositoryName.Include with
    | some b => b
    | none => false
  else
    !(ruleset.Conditions.RepositoryName.Exclude.any (entryMatches repo))

end Deps

/-!
## Concurrent Batch Analysis Cache (internal/batch/batch.go)

Network-bound pieces are abstracted as oracles: `loadCtx` stands for
`loadOrganizationContext` (its four concurrent loaders populate disjoint
fields of one `OrganizationContext` and never fail the call), and `perRepo`
stands for the five concurrent per-repository analyzers (each writing only
into the private `OrganizationalDependencies` of its own task).  Goroutine
completion order is modelled explicitly: each per-repository task writes
only its own index of the pre-sized result slice, and a schedule — the
order in which the tasks commit their slots — is an explicit parameter.
-/

/-- The `OrgInfo` field of `OrganizationContext`. -/
structure OrgInfoData where
  DefaultRepositoryPermission : GoStr
  MembersCanCreateRepos : Bool
  MembersCanCreatePrivateRepos : Bool
  MembersCanCreateInternalRepos : Bool
  MembersCanCreatePublicRepos : Bool
  MembersCanCreatePages : Bool
  MembersCanForkPrivateRepos : Bool
  WebCommitSignoffRequired : Bool
  MembersCanDeleteRepos : Bool
  MembersCanDeleteIssues : Bool
  MembersCanCreateTeams : Bool
  TwoFactorRequirementEnabled : Bool
  deriving DecidableEq, Inhabited

/-- Go struct `OrganizationContext` (the `sync.RWMutex` field is a
locking artefact with no data content and is not modelled). -/
structure OrganizationContext where
  Organization : GoStr
  Apps : OrgAppsIntegrations
  Governance : OrgGovernance
  SecurityCampaigns : List GoStr
  OrganizationRoles : List GoStr
  OrgInfo : OrgInfoData
  deriving DecidableEq, Inhabited

/-- Go struct `BatchAnalysisResult`. -/
structure BatchAnalysisResult where
  Repository : GoStr
  Result : Option OrganizationalDependencies
  Error : Option GoStr
  deriving DecidableEq, Inhabited

/-- The error message of `parseRepository`. -/
def repoFormatErrMsg : GoStr :=
  gs "repository must be in format " ++ [sqc] ++ gs "owner/repo" ++ [sqc]

namespace Batch

/-- `parseRepository in internal/batch`: split on `"/"` and require exactly
two parts. -/
def parseRepository (repoSpec : GoStr) : Except GoStr (GoStr × GoStr) :=
  let parts := goSplit repoSpec (gs "/")
  if parts.length = 2 then .ok (parts.getD 0 [], parts.getD 1 [])
  else .error repoFormatErrMsg

/-- `analyzeRepositoryWithContext`: parse the spec (a failure is returned
as this resource's error), seed the private facts record with the two
copied org-context fields, then run the per-repository analyzers (oracle).
Analyzer errors are collected only as verbose warnings in the source and
never affect the returned value. -/
def analyzeRepositoryWithContext
    (perRepo : GoStr → GoStr → OrganizationalDependencies → OrganizationalDependencies)
    (orgCtx : OrganizationContext) (repoSpec : GoStr) :
    Except GoStr OrganizationalDependencies :=
  match parseRepository repoSpec with
  | .error e => .error e
  | .ok (owner, repo) =>
    let deps : OrganizationalDependencies :=
      { Repository := repoSpec
        CodeDependencies := default
        ActionsCIDependencies := default
        AccessPermissions := default
        SecurityCompliance := default
        AppsIntegrations := { InstalledGitHubApps := orgCtx.Apps.InstalledGitHubApps,
                              PersonalAccessTokens := [] }
        OrgGovernance := orgCtx.Governance
        Validation := none }
    .ok (perRepo owner repo deps)

/-- The slot a single per-repository goroutine writes at its own index:
`BatchAnalysisResult{Repository, Result, Error}`. -/
def mkBatchSlot
    (perRepo : GoStr → GoStr → OrganizationalDependencies → OrganizationalDependencies)
    (orgCtx : OrganizationContext) (repository : GoStr) : BatchAnalysisResult :=
  match analyzeRepositoryWithContext perRepo orgCtx repository with
  | .ok result => { Repository := repository, Result := some result, Error := none }
  | .error e => { Repository := repository, Result := none, Error := some e }

/-- Index-addressed write into the pre-sized result slice. -/
def writeSlot {n : Nat} (mem : Fin n → BatchAnalysisResult) (i : Fin n)
    (v : BatchAnalysisResult) : Fin n → BatchAnalysisResult :=
  fun j => if j = i then v else mem j

/-- Replay the per-repository tasks in the completion order `order`, each
committing only its own slot of the zero-initialised result slice. -/
def runSchedule {n : Nat} (slot : Fin n → BatchAnalysisResult)
    (order : List (Fin n)) : Fin n → BatchAnalysisResult :=
  order.foldl (fun mem i => writeSlot mem i (slot i)) (fun _ => default)

/-- `AnalyzeRepositories`: reject an empty batch; parse the first
repository to obtain the shared organization (a failure here aborts the
whole batch); load the organization context once; then fan out one task
per repository, writing slots in completion order `order`. -/
def AnalyzeRepositories
    (perRepo : GoStr → GoStr → OrganizationalDependencies → OrganizationalDependencies)
    (loadCtx : GoStr → OrganizationContext)
    (repos : List GoStr) (order : List (Fin repos.length)) :
    Except GoStr (List BatchAnalysisResult) :=
  if repos.length = 0 then .error (gs "no repositories provided")
  else
    match parseRepository (repos.headD []) with
    | .error e =>
      .error (gs "failed to parse repository " ++ repos.headD [] ++ gs ": " ++ e)
    | .ok (owner, _) =>
      let orgCtx := loadCtx owner
      .ok (List.ofFn (runSchedule (fun j => mkBatchSlot perRepo orgCtx (repos.get j)) order))

/-- The `"Targets repos:"` key searched for by the degraded resolver. -/
def targetsKey : GoStr := gs "Targets repos:"

/-- The `"Targets repos: "` marker stripped by the degraded resolver. -/
def targetsPre : GoStr := gs "Targets repos: "

/-- The `"Excludes repos:"` key searched for by the degraded resolver. -/
def excludesKey : GoStr := gs "Excludes repos:"

/-- The `"Excludes repos: "` marker stripped by the degraded resolver. -/
def excludesPre : GoStr := gs "Excludes repos: "

/-- The restriction loop of the degraded resolver.  A restriction that
contains the targets key decides the answer immediately (`true` for
`"All repositories"` or a list match, `false` otherwise); a restriction
that contains the excludes key returns `false` on a list match and
otherwise lets the loop continue. -/
def restrictionLoop (repo : GoStr) : List GoStr → Option Bool
  | [] => none
  | restriction :: rest =>
    if goContains restriction targetsKey then
      let targets := goTrimPre restriction targetsPre
      if targets == gs "All repositories" then some true
      else if (goSplit targets (gs ", ")).any fun target =>
          target == repo || goContains target (gs "*") then some true
      else some false
    else if goContains restriction excludesKey then
      let excludes := goTrimPre restriction excludesPre
      if (goSplit excludes (gs ", ")).any fun exclude =>
          exclude == repo || goContains exclude (gs "*") then some false
      else restrictionLoop repo rest
    else restrictionLoop repo rest

/-- `rulesetAppliesToRepo` (internal/batch, degraded free-text mode).  If
the restriction loop falls through, a second loop returns `false` when any
restriction contains the targets key, else `true`. -/
def rulesetAppliesToRepo (policy : OrgPolicy) (repo : GoStr) : Bool :=
  match restrictionLoop repo policy.Restrictions with
  | some b => b
  | none =>
    if policy.Restrictions.any fun restriction => goContains restriction targetsKey then
      false
    else true

end Batch

/-!
## Helper lemmas
-/

/-- A string starts with every prefix of itself. -/
theorem goStartsWith_self_append (p s : GoStr) : goStartsWith (p ++ s) p = true := by
  induction p with
  | nil => cases s <;> rfl
  | cons c cs ih => simp [goStartsWith, ih]

/-- Extending a string on the right preserves its prefixes. -/
theorem goStartsWith_append_left {a p : GoStr} (h : goStartsWith a p = true)
    (b : GoStr) : goStartsWith (a ++ b) p = true := by
  induction p generalizing a with
  | nil => cases a <;> simp [goStartsWith]
  | cons d ds ih =>
    cases a with
    | nil => simp [goStartsWith] at h
    | cons c cs =>
      simp only [goStartsWith, Bool.and_eq_true] at h
      simp only [List.cons_append, goStartsWith, Bool.and_eq_true]
      exact ⟨h.1, ih h.2⟩

/-- A prefix is in particular a substring. -/
theorem goContains_of_startsWith {s p : GoStr} (h : goStartsWith s p = true) :
    goContains s p = true := by
  cases s <;> simp [goContains, h]

/-- Stripping a marker from a string that was built by prepending it. -/
theorem goTrimPre_append (p s : GoStr) : goTrimPre (p ++ s) p = s := by
  simp [goTrimPre, goStartsWith_self_append, List.drop_left]

/-- The six readiness counters of a summary, summed. -/
def sumCounters (s : ValidationSummary) : Nat :=
  s.Ready + s.SetupNeeded + s.Blockers + s.Warnings + s.Review + s.Unknown

theorem summaryStep_total (s : ValidationSummary) (r : ValidationResult) :
    (summaryStep s r).Total = s.Total + 1 := by
  unfold summaryStep
  split_ifs <;> rfl

theorem summaryStep_sum (s : ValidationSummary) (r : ValidationResult) :
    sumCounters (summaryStep s r) = sumCounters s + 1 := by
  unfold summaryStep sumCounters
  split_ifs <;> simp <;> omega

theorem foldl_summaryStep_total (l : List ValidationResult) (s : ValidationSummary) :
    (l.foldl summaryStep s).Total = s.Total + l.length := by
  induction l generalizing s with
  | nil => simp
  | cons r rest ih => simp [List.foldl_cons, ih, summaryStep_total]; omega

theorem foldl_summaryStep_sum (l : List ValidationResult) (s : ValidationSummary) :
    sumCounters (l.foldl summaryStep s) = sumCounters s + l.length := by
  induction l generalizing s with
  | nil => simp
  | cons r rest ih => simp [List.foldl_cons, ih, summaryStep_sum]; omega

/-- `calculateSummary` counts every result exactly once. -/
theorem calculateSummary_total_eq_len (v : MigrationValidation) :
    (calculateSummary v).Total = (allValidationResults v).length := by
  unfold calculateSummary
  rw [foldl_summaryStep_total]
  simp

/-- The total of a computed summary equals the sum of its six counters. -/
theorem calculateSummary_total_eq_sum (v : MigrationValidation) :
    (calculateSummary v).Total = sumCounters (calculateSummary v) := by
  unfold calculateSummary
  rw [foldl_summaryStep_total, foldl_summaryStep_sum]
  rfl

/-- A result status drawn from the five statuses the classifier assigns. -/
def statusOk (r : ValidationResult) : Bool :=
  r.Status == validationReady || r.Status == validationSetupNeeded ||
  r.Status == validationBlocker || r.Status == validationWarning ||
  r.Status == validationReview

theorem summaryStep_unknown_of_ok {r : ValidationResult} (h : statusOk r = true)
    (s : ValidationSummary) : (summaryStep s r).Unknown = s.Unknown := by
  simp only [statusOk, Bool.or_eq_true, beq_iff_eq] at h
  rcases h with ((((h1 | h1) | h1) | h1) | h1) <;>
    simp +decide [summaryStep, h1]

theorem foldl_summaryStep_unknown {l : List ValidationResult}
    (h : l.all statusOk = true) (s : ValidationSummary) :
    (l.foldl summaryStep s).Unknown = s.Unknown := by
  induction l generalizing s with
  | nil => simp
  | cons r rest ih =>
    simp only [List.all_cons, Bool.and_eq_true] at h
    simp [List.foldl_cons, ih h.2, summaryStep_unknown_of_ok h.1]

theorem all_statusOk_map {α : Type} (f : α → ValidationResult)
    (h : ∀ x, statusOk (f x) = true) (l : List α) :
    (l.map f).all statusOk = true := by
  induction l with
  | nil => rfl
  | cons x rest ih => simp [ih, h]

theorem all_statusOk_flatMap {α : Type} (f : α → List ValidationResult)
    (h : ∀ x, (f x).all statusOk = true) (l : List α) :
    (l.flatMap f).all statusOk = true := by
  induction l with
  | nil => rfl
  | cons x rest ih => simp only [List.flatMap_cons, List.all_append, ih, h, Bool.and_self]

theorem validateAppsIntegrations_statusOk (apps : AppsIntegrations)
    (capabilities : TargetOrgCapabilities) :
    (validateAppsIntegrations apps capabilities).all statusOk = true := by
  unfold validateAppsIntegrations
  apply all_statusOk_map
  intro app
  dsimp only
  split_ifs <;> simp [statusOk]

theorem codeownersResult_statusOk (capabilities : TargetOrgCapabilities)
    (requirement : GoStr) :
    (codeownersResult capabilities requirement).all statusOk = true := by
  unfold codeownersResult
  dsimp only
  split_ifs <;> simp [statusOk]

theorem validateAccessPermissions_statusOk (access : AccessPermissions)
    (capabilities : TargetOrgCapabilities) (assignTeams : Bool) :
    (validateAccessPermissions access capabilities assignTeams).all statusOk = true := by
  unfold validateAccessPermissions
  simp only [List.all_append, Bool.and_eq_true]
  refine ⟨⟨?_, ?_⟩, ?_⟩
  · apply all_statusOk_map
    intro team
    dsimp only
    split_ifs <;> simp [statusOk]
  · apply all_statusOk_map
    intro collaborator
    simp [statusOk]
  · exact all_statusOk_flatMap _ (codeownersResult_statusOk capabilities) _

theorem validateCIDependencies_statusOk (ci : ActionsCIDependencies)
    (capabilities : TargetOrgCapabilities) :
    (validateCIDependencies ci capabilities).all statusOk = true := by
  unfold validateCIDependencies
  simp only [List.all_append, Bool.and_eq_true]
  refine ⟨⟨⟨?_, ?_⟩, ?_⟩, ?_⟩ <;>
    · apply all_statusOk_map
      intro x
      dsimp only
      first
      | (split_ifs <;> simp [statusOk])
      | simp [statusOk]

theorem validateMemberPrivilegePolicy_statusOk (policy : OrgPolicy)
    (targetPrivileges : OrgMemberPrivileges) :
    statusOk (validateMemberPrivilegePolicy policy targetPrivileges) = true := by
  unfold validateMemberPrivilegePolicy
  dsimp only
  split_ifs <;> simp [statusOk]

theorem validateRepositoryPolicy_statusOk (policy : OrgPolicy)
    (targetPolicies : List OrgPolicy) :
    statusOk (validateRepositoryPolicy policy targetPolicies) = true := by
  unfold validateRepositoryPolicy
  dsimp only
  split_ifs <;> simp [statusOk]

theorem validateGovernance_statusOk (governance : OrgGovernance)
    (capabilities : TargetOrgCapabilities) :
    (validateGovernance governance capabilities).all statusOk = true := by
  unfold validateGovernance
  simp only [List.all_append, Bool.and_eq_true]
  refine ⟨⟨?_, ?_⟩, ?_⟩
  · apply all_statusOk_map
    intro policy
    dsimp only
    split_ifs
    · exact validateMemberPrivilegePolicy_statusOk _ _
    · exact validateRepositoryPolicy_statusOk _ _
  · apply all_statusOk_map
    intro template
    simp [statusOk]
  · apply all_statusOk_map
    intro template
    simp [statusOk]

theorem validateCodeDependencies_statusOk (code : CodeDependencies)
    (capabilities : TargetOrgCapabilities) :
    (validateCodeDependencies code capabilities).all statusOk = true := by
  unfold validateCodeDependencies
  apply all_statusOk_map
  intro submodule
  dsimp only
  split_ifs <;> simp [statusOk]

theorem validateSecurityCompliance_statusOk (security : SecurityCompliance)
    (capabilities : TargetOrgCapabilities) :
    (validateSecurityCompliance security capabilities).all statusOk = true := by
  unfold validateSecurityCompliance
  apply all_statusOk_map
  intro campaign
  simp [statusOk]

theorem validate_allResults_statusOk (deps : OrganizationalDependencies)
    (capabilities : TargetOrgCapabilities) (assignTeams : Bool) :
    (allValidationResults (ValidateAgainstTarget deps capabilities assignTeams)).all
      statusOk = true := by
  show (validateAppsIntegrations deps.AppsIntegrations capabilities ++
        validateAccessPermissions deps.AccessPermissions capabilities assignTeams ++
        validateCIDependencies deps.ActionsCIDependencies capabilities ++
        validateGovernance deps.OrgGovernance capabilities ++
        validateCodeDependencies deps.CodeDependencies capabilities ++
        validateSecurityCompliance deps.SecurityCompliance capabilities).all statusOk = true
  simp only [List.all_append, Bool.and_eq_true]
  exact ⟨⟨⟨⟨⟨validateAppsIntegrations_statusOk _ _,
    validateAccessPermissions_statusOk _ _ _⟩,
    validateCIDependencies_statusOk _ _⟩,
    validateGovernance_statusOk _ _⟩,
    validateCodeDependencies_statusOk _ _⟩,
    validateSecurityCompliance_statusOk _ _⟩

theorem calculateSummary_unknown_eq_zero {v : MigrationValidation}
    (h : (allValidationResults v).all statusOk = true) :
    (calculateSummary v).Unknown = 0 := by
  unfold calculateSummary
  rw [foldl_summaryStep_unknown h]

theorem determineOverallReadiness_ne_unknown {s : ValidationSummary}
    (hU : s.Unknown = 0) (hT : s.Total = sumCounters s) :
    (determineOverallReadiness s == validationUnknown) = false := by
  unfold determineOverallReadiness
  split_ifs with h1 h2 h3 h4
  · decide
  · decide
  · decide
  · decide
  · exfalso
    unfold sumCounters at hT
    omega

/-- The include loop returns the exclude verdict at the first matching
entry and falls through otherwise. -/
theorem includeLoop_eq (excludes : List GoStr) (repo : GoStr) (l : List GoStr) :
    includeLoop excludes repo l =
      if l.any (entryMatches repo) then some (!(excludes.any (entryMatches repo)))
      else none := by
  induction l with
  | nil => simp [includeLoop]
  | cons t ts ih =>
    by_cases h : entryMatches repo t = true <;>
      simp [includeLoop, h, ih]

/-- The final content of an index-addressed slot array depends only on the
set of indices written, not on the write order. -/
theorem foldl_writeSlot {n : Nat} (slot : Fin n → BatchAnalysisResult)
    (order : List (Fin n)) (mem : Fin n → BatchAnalysisResult) (j : Fin n) :
    (order.foldl (fun m i => Batch.writeSlot m i (slot i)) mem) j =
      if j ∈ order then slot j else mem j := by
  induction order generalizing mem with
  | nil => simp
  | cons i rest ih =>
    simp only [List.foldl_cons, ih, List.mem_cons]
    by_cases hr : j ∈ rest
    · simp [hr]
    · by_cases hji : j = i
      · subst hji
        simp [hr, Batch.writeSlot]
      · simp [hr, hji, Batch.writeSlot]

/-- Every task index that appears in the completion order ends up holding
its own slot value. -/
theorem runSchedule_eq_of_mem {n : Nat} (slot : Fin n → BatchAnalysisResult)
    (order : List (Fin n)) {j : Fin n} (hj : j ∈ order) :
    Batch.runSchedule slot order j = slot j := by
  unfold Batch.runSchedule
  rw [foldl_writeSlot, if_pos hj]

/-- A batch slot always carries the identifier of its own resource. -/
theorem mkBatchSlot_repository
    (perRepo : GoStr → GoStr → OrganizationalDependencies → OrganizationalDependencies)
    (orgCtx : OrganizationContext) (repository : GoStr) :
    (Batch.mkBatchSlot perRepo orgCtx repository).Repository = repository := by
  unfold Batch.mkBatchSlot
  split <;> rfl

/-!
## Claims
-/

/-- The overall-readiness precedence exactly as the specification words it
(spec §4.3, Aggregation): blockers, then setup-needed or review, then
warnings, then all-ready, else unknown. -/
def specOverallReadiness (summary : ValidationSummary) : ValidationStatus :=
  if summary.Blockers > 0 then validationBlocker
  else if summary.SetupNeeded > 0 ∨ summary.Review > 0 then validationSetupNeeded
  else if summary.Warnings > 0 then validationWarning
  else if summary.Ready = summary.Total then validationReady
  else validationUnknown

/-- C5: the structured Ruleset Target Resolver returns true exactly when
(a) the include list is empty, or some include entry equals the resource
name, or some include entry contains the literal character `*`, and (b) no
exclude entry equals the resource name and no exclude entry contains `*`.
In particular it returns false whenever the include list is non-empty and
no entry matches, and returns true for every resource name when both
condition lists are empty. -/
theorem structured_resolver_include_exclude_characterization
    (ruleset : OrgRuleset) (repo : GoStr) :
    Deps.rulesetAppliesToRepo ruleset repo =
      ((ruleset.Conditions.RepositoryName.Include.isEmpty ||
        ruleset.Conditions.RepositoryName.Include.any (entryMatches repo)) &&
       !(ruleset.Conditions.RepositoryName.Exclude.any (entryMatches repo))) := by
  unfold Deps.rulesetAppliesToRepo
  rw [includeLoop_eq]
  cases hI : ruleset.Conditions.RepositoryName.Include with
  | nil => simp
  | cons t ts =>
    by_cases hA : (t :: ts).any (entryMatches repo) = true
    · simp [hA]
    · simp [hA]

/-- C6: `determineOverallReadiness` computes overall readiness by the exact
precedence the spec states, and in particular yields `blocker` if and only
if the blocker counter is positive, regardless of the other counters. -/
theorem overall_readiness_precedence (summary : ValidationSummary) :
    determineOverallReadiness summary = specOverallReadiness summary ∧
    (determineOverallReadiness summary = validationBlocker ↔ 0 < summary.Blockers) := by
  constructor
  · rfl
  · constructor
    · intro h
      unfold determineOverallReadiness at h
      split_ifs at h with h1 h2 h3 h4
      · exact h1
      · exact absurd h (by decide)
      · exact absurd h (by decide)
      · exact absurd h (by decide)
      · exact absurd h (by decide)
    · intro h
      unfold determineOverallReadiness
      rw [if_pos h]

/-- C7: for every output of `ValidateAgainstTarget`, the summary total
equals the sum of the six per-status counters, and equals the number of
validation results across the six category lists. -/
theorem summary_total_invariant (deps : OrganizationalDependencies)
    (capabilities : TargetOrgCapabilities) (assignTeams : Bool) :
    (ValidateAgainstTarget deps capabilities assignTeams).Summary.Total =
      (ValidateAgainstTarget deps capabilities assignTeams).Summary.Ready +
      (ValidateAgainstTarget deps capabilities assignTeams).Summary.SetupNeeded +
      (ValidateAgainstTarget deps capabilities assignTeams).Summary.Blockers +
      (ValidateAgainstTarget deps capabilities assignTeams).Summary.Warnings +
      (ValidateAgainstTarget deps capabilities assignTeams).Summary.Review +
      (ValidateAgainstTarget deps capabilities assignTeams).Summary.Unknown ∧
    (ValidateAgainstTarget deps capabilities assignTeams).Summary.Total =
      (allValidationResults (ValidateAgainstTarget deps capabilities assignTeams)).length := by
  constructor
  · have h := calculateSummary_total_eq_sum (ValidateAgainstTarget deps capabilities assignTeams)
    unfold sumCounters at h
    exact h
  · exact calculateSummary_total_eq_len (ValidateAgainstTarget deps capabilities assignTeams)

/-- C8: the `assignTeams` flag has no observable effect: `ValidateAgainstTarget`
returns identical records for `true` and `false`. -/
theorem assignTeams_flag_no_effect (deps : OrganizationalDependencies)
    (capabilities : TargetOrgCapabilities) :
    ValidateAgainstTarget deps capabilities true =
      ValidateAgainstTarget deps capabilities false := rfl

/-- C9: every validation result carries one of the five assigned statuses
(never `unknown`), hence the unknown counter of every output summary is
zero and the overall readiness is never `unknown`. -/
theorem classifier_never_unknown (deps : OrganizationalDependencies)
    (capabilities : TargetOrgCapabilities) (assignTeams : Bool) :
    ((allValidationResults (ValidateAgainstTarget deps capabilities assignTeams)).all
      statusOk = true) ∧
    (ValidateAgainstTarget deps capabilities assignTeams).Summary.Unknown = 0 ∧
    ((ValidateAgainstTarget deps capabilities assignTeams).OverallReadiness ==
      validationUnknown) = false := by
  refine ⟨validate_allResults_statusOk deps capabilities assignTeams, ?_, ?_⟩
  · exact calculateSummary_unknown_eq_zero
      (validate_allResults_statusOk deps capabilities assignTeams)
  · exact determineOverallReadiness_ne_unknown
      (calculateSummary_unknown_eq_zero
        (validate_allResults_statusOk deps capabilities assignTeams))
      (calculateSummary_total_eq_sum _)

/-- The policy used to refute C1: its name contains `"policy"` and is not
literally `"Member Management Policy"`, yet it also contains the
member-privilege keyword `"repository creation"`. -/
def repoCreationPolicy : OrgPolicy :=
  { Name := gs "Repository Creation Policy", Status := gs "active", Restrictions := [] }

/-- C1 counterexample: in the governance validation (internal/validation),
`isMemberPrivilegePolicy` classifies a policy named
`"Repository Creation Policy"` as member-privilege even though its name
contains `"policy"` and differs from `"Member Management Policy"`, and
`validateGovernance` consequently validates it via the member-privilege
path (the result is the member-privilege ready message, which the
repository-policy path never produces). -/
theorem governance_policy_name_counterexample :
    goContains (goToLower repoCreationPolicy.Name) (gs "policy") = true ∧
    (repoCreationPolicy.Name == gs "Member Management Policy") = false ∧
    isMemberPrivilegePolicy repoCreationPolicy = true ∧
    validateGovernance
      { OrganizationPolicies := [repoCreationPolicy], RepositoryPolicies := [],
        MemberPrivileges := [], RepositoryRulesets := [], IssueTemplates := [],
        PullRequestTemplates := [], RequiredStatusChecks := [] }
      default =
      [{ Item := gs "Repository Creation Policy (status: active)",
         Status := validationReady,
         Message := gs "Member privilege settings meet policy requirements",
         Recommendation := [] }] := by
  refine ⟨by decide, by decide, by decide, by decide⟩

/-- C1 (amended): the name-based early return lives in the org-level policy
separation of the output layer, not in the governance validation — for
every policy whose lowered name contains `"policy"` and whose name is not
literally `"Member Management Policy"`, `isMemberPrivilegePolicyOrgLevel`
classifies it as a repository policy (returns false), regardless of which
member-privilege keywords appear in its name or restriction strings. -/
theorem orgLevel_policy_name_forces_repository_policy (policy : OrgPolicy)
    (hname : goContains (goToLower policy.Name) (gs "policy") = true)
    (hnot : (policy.Name == gs "Member Management Policy") = false) :
    isMemberPrivilegePolicyOrgLevel policy = false := by
  unfold isMemberPrivilegePolicyOrgLevel
  rw [if_pos]
  rw [hname, hnot]
  rfl

/-- C1 witness: the amended theorem applied to the keyword-laden
counterexample policy. -/
theorem orgLevel_policy_name_witness :
    isMemberPrivilegePolicyOrgLevel repoCreationPolicy = false :=
  orgLevel_policy_name_forces_repository_policy repoCreationPolicy
    (by decide) (by decide)

/-- C4 counterexample: in the degraded free-text mode, a policy whose
restriction list contains a matching `"Targets repos:"` entry before a
matching `"Excludes repos:"` entry resolves to true — the exclude does not
win when the include restriction appears first. -/
theorem degraded_exclude_order_counterexample :
    Batch.rulesetAppliesToRepo
      { Name := gs "P", Status := gs "active",
        Restrictions := [gs "Targets repos: r", gs "Excludes repos: r"] }
      (gs "r") = true := by decide

/-- C4 (amended): in the degraded free-text mode, exclude wins only when the
`"Excludes repos:"` restriction precedes the `"Targets repos:"`
restriction; with the include restriction first the resolver returns true
at the include match without ever consulting the exclude entry. -/
theorem degraded_exclude_wins_only_when_first
    (name status repo tlist elist : GoStr)
    (hT : (tlist == gs "All repositories" ||
           (goSplit tlist (gs ", ")).any (entryMatches repo)) = true)
    (hE : (goSplit elist (gs ", ")).any (entryMatches repo) = true)
    (hcross : goContains (Batch.excludesPre ++ elist) Batch.targetsKey = false) :
    Batch.rulesetAppliesToRepo
      { Name := name, Status := status,
        Restrictions := [Batch.excludesPre ++ elist, Batch.targetsPre ++ tlist] }
      repo = false ∧
    Batch.rulesetAppliesToRepo
      { Name := name, Status := status,
        Restrictions := [Batch.targetsPre ++ tlist, Batch.excludesPre ++ elist] }
      repo = true := by
  have hTcont : goContains (Batch.targetsPre ++ tlist) Batch.targetsKey = true :=
    goContains_of_startsWith
      (goStartsWith_append_left (by decide : goStartsWith Batch.targetsPre Batch.targetsKey = true) tlist)
  have hEcont : goContains (Batch.excludesPre ++ elist) Batch.excludesKey = true :=
    goContains_of_startsWith
      (goStartsWith_append_left (by decide : goStartsWith Batch.excludesPre Batch.excludesKey = true) elist)
  have hE2 : ((goSplit elist (gs ", ")).any fun exclude =>
      exclude == repo || goContains exclude (gs "*")) = true := hE
  constructor
  · simp [Batch.rulesetAppliesToRepo, Batch.restrictionLoop, hcross, hEcont,
      goTrimPre_append, hE2]
  · rw [Bool.or_eq_true] at hT
    rcases hT with h | h
    · simp [Batch.rulesetAppliesToRepo, Batch.restrictionLoop, hTcont,
        goTrimPre_append, h]
    · have h2 : ((goSplit tlist (gs ", ")).any fun target =>
          target == repo || goContains target (gs "*")) = true := h
      simp [Batch.rulesetAppliesToRepo, Batch.restrictionLoop, hTcont,
        goTrimPre_append, h2]

/-- C4 witness: the amended theorem at a concrete resource and concrete
include and exclude lists. -/
theorem degraded_exclude_order_witness :
    Batch.rulesetAppliesToRepo
      { Name := gs "P", Status := gs "active",
        Restrictions := [Batch.excludesPre ++ gs "r", Batch.targetsPre ++ gs "r"] }
      (gs "r") = false ∧
    Batch.rulesetAppliesToRepo
      { Name := gs "P", Status := gs "active",
        Restrictions := [Batch.targetsPre ++ gs "r", Batch.excludesPre ++ gs "r"] }
      (gs "r") = true :=
  degraded_exclude_wins_only_when_first (gs "P") (gs "active") (gs "r") (gs "r") (gs "r")
    (by decide) (by decide) (by decide)

/-- C10: a CODEOWNERS requirement that starts with `"Team: @"` but whose
reference does not split into exactly two segments, or that starts with
neither `"Team: @"` nor `"User: @"`, contributes no validation result:
removing it from the discovered list leaves the access-permissions results
unchanged. -/
theorem malformed_codeowners_item_omitted (access : AccessPermissions)
    (capabilities : TargetOrgCapabilities) (assignTeams : Bool)
    (l1 l2 : List GoStr) (r : GoStr)
    (h : (goStartsWith r teamAtPre = true ∧
          (goSplit (goTrimPre r teamAtPre) (gs "/")).length ≠ 2) ∨
         (goStartsWith r teamAtPre = false ∧ goStartsWith r userAtPre = false)) :
    validateAccessPermissions
      { access with CodeownersRequirements := l1 ++ r :: l2 } capabilities assignTeams =
    validateAccessPermissions
      { access with CodeownersRequirements := l1 ++ l2 } capabilities assignTeams := by
  have hr : codeownersResult capabilities r = [] := by
    rcases h with ⟨h1, h2⟩ | ⟨h1, h2⟩
    · simp [codeownersResult, h1, h2]
    · simp [codeownersResult, h1, h2]
  unfold validateAccessPermissions
  simp [List.flatMap_append, hr]

/-- C10 witness: a `"Team: @"` item with no slash in its reference is
silently dropped from the discovered CODEOWNERS list of a concrete
access-permissions record. -/
theorem malformed_codeowners_item_witness :
    validateAccessPermissions
      { Teams := [gs "frontend (write)"], IndividualCollaborators := [gs "alice"],
        OrganizationRoles := [], OrganizationMembership := [],
        CodeownersRequirements := [gs "User: @bob"] ++ gs "Team: @orgteam" :: [] }
      default true =
    validateAccessPermissions
      { Teams := [gs "frontend (write)"], IndividualCollaborators := [gs "alice"],
        OrganizationRoles := [], OrganizationMembership := [],
        CodeownersRequirements := [gs "User: @bob"] ++ [] }
      default true :=
  malformed_codeowners_item_omitted
    { Teams := [gs "frontend (write)"], IndividualCollaborators := [gs "alice"],
      OrganizationRoles := [], OrganizationMembership := [],
      CodeownersRequirements := [] }
    default true [gs "User: @bob"] [] (gs "Team: @orgteam")
    (Or.inl ⟨by decide, by decide⟩)

/-- Identity per-repository analyzer oracle used by the concrete batch
instances below. -/
def wPerRepo : GoStr → GoStr → OrganizationalDependencies → OrganizationalDependencies :=
  fun _ _ deps => deps

/-- Organization-context oracle used by the concrete batch instances. -/
def wLoadCtx : GoStr → OrganizationContext := fun _ => default

/-- C2 counterexample: a batch whose FIRST resource identifier is malformed
returns a whole-batch error and no result slots at all, instead of a
per-resource error slot. -/
theorem malformed_first_resource_counterexample :
    Batch.AnalyzeRepositories wPerRepo wLoadCtx [gs "bad", gs "o/r"]
      [⟨0, by decide⟩, ⟨1, by decide⟩] =
      .error (gs "failed to parse repository bad: " ++ repoFormatErrMsg) := rfl

/-- C2 (amended): provided the first resource identifier parses (it is read
up-front to derive the shared organization), the batch returns exactly one
slot per input resource, every slot is computed from its own resource alone
(plus the shared context), and every malformed resource — at any position
other than the first — gets its parse failure recorded as its own slot's
error with nil facts, leaving every other slot unaffected.  A malformed
FIRST identifier instead aborts the whole batch (see the counterexample). -/
theorem malformed_resource_isolated_after_first
    (perRepo : GoStr → GoStr → OrganizationalDependencies → OrganizationalDependencies)
    (loadCtx : GoStr → OrganizationContext)
    (repos : List GoStr) (order : List (Fin repos.length)) (ow : GoStr × GoStr)
    (hne : repos ≠ [])
    (hfirst : Batch.parseRepository (repos.headD []) = .ok ow)
    (horder : ∀ j : Fin repos.length, j ∈ order) :
    Batch.AnalyzeRepositories perRepo loadCtx repos order =
      .ok (List.ofFn fun j => Batch.mkBatchSlot perRepo (loadCtx ow.1) (repos.get j)) ∧
    ∀ j : Fin repos.length, (goSplit (repos.get j) (gs "/")).length ≠ 2 →
      Batch.mkBatchSlot perRepo (loadCtx ow.1) (repos.get j) =
        { Repository := repos.get j, Result := none, Error := some repoFormatErrMsg } := by
  obtain ⟨owner, oname⟩ := ow
  constructor
  · unfold Batch.AnalyzeRepositories
    rw [if_neg (by simpa using hne), hfirst]
    dsimp only
    congr 1
    exact congrArg List.ofFn (funext fun j => runSchedule_eq_of_mem _ order (horder j))
  · intro j hj
    simp only [List.get_eq_getElem] at hj
    simp [Batch.mkBatchSlot, Batch.analyzeRepositoryWithContext, Batch.parseRepository, hj]

/-- The concrete two-resource batch for the C2 witness: a well-formed first
resource and a malformed second one, with the tasks completing in reverse
order. -/
def wReposC2 : List GoStr := [gs "o/a", gs "bad"]

/-- Reverse completion order for the C2 witness batch. -/
def wOrderC2 : List (Fin wReposC2.length) := [⟨1, by decide⟩, ⟨0, by decide⟩]

/-- C2 witness: the amended theorem applied to the concrete batch; the
malformed second resource yields exactly its own error slot. -/
theorem malformed_resource_isolated_witness :
    Batch.AnalyzeRepositories wPerRepo wLoadCtx wReposC2 wOrderC2 =
      .ok (List.ofFn fun j => Batch.mkBatchSlot wPerRepo (wLoadCtx (gs "o")) (wReposC2.get j)) ∧
    Batch.mkBatchSlot wPerRepo (wLoadCtx (gs "o")) (wReposC2.get ⟨1, by decide⟩) =
      { Repository := gs "bad", Result := none, Error := some repoFormatErrMsg } :=
  ⟨(malformed_resource_isolated_after_first wPerRepo wLoadCtx wReposC2 wOrderC2
      (gs "o", gs "a") (by decide) rfl (by decide)).1,
   (malformed_resource_isolated_after_first wPerRepo wLoadCtx wReposC2 wOrderC2
      (gs "o", gs "a") (by decide) rfl (by decide)).2 ⟨1, by decide⟩ (by decide)⟩

/-- C3: whenever the batch returns a result list and the completion order
is a permutation of the task indices, the list has one slot per input
resource and slot `i` carries the identifier of input resource `i`,
independent of the completion order. -/
theorem batch_results_in_input_order
    (perRepo : GoStr → GoStr → OrganizationalDependencies → OrganizationalDependencies)
    (loadCtx : GoStr → OrganizationContext)
    (repos : List GoStr) (order : List (Fin repos.length))
    (res : List BatchAnalysisResult)
    (hperm : order.Perm (List.finRange repos.length))
    (hok : Batch.AnalyzeRepositories perRepo loadCtx repos order = .ok res) :
    res.length = repos.length ∧
    ∀ i : Nat, (res.getD i default).Repository = repos.getD i [] := by
  have horder : ∀ j : Fin repos.length, j ∈ order := fun j =>
    hperm.symm.subset (List.mem_finRange j)
  unfold Batch.AnalyzeRepositories at hok
  split_ifs at hok with hlen
  rcases hmatch : Batch.parseRepository (repos.headD []) with e | ow
  · rw [hmatch] at hok
    simp at hok
  · obtain ⟨owner, oname⟩ := ow
    rw [hmatch] at hok
    simp only [Except.ok.injEq] at hok
    subst hok
    have hreslen : (List.ofFn (Batch.runSchedule
        (fun j => Batch.mkBatchSlot perRepo (loadCtx owner) (repos.get j)) order)).length =
        repos.length := by simp
    refine ⟨hreslen, ?_⟩
    intro i
    by_cases hi : i < repos.length
    · rw [List.getD_eq_getElem _ _ (by simpa using hi),
        List.getD_eq_getElem _ _ hi, List.getElem_ofFn]
      rw [runSchedule_eq_of_mem _ order (horder _)]
      rw [mkBatchSlot_repository]
      simp
    · rw [List.getD_eq_default _ _ (by simpa using Nat.le_of_not_lt hi),
        List.getD_eq_default _ _ (Nat.le_of_not_lt hi)]
      rfl

/-- The concrete three-resource batch for the C3 witness. -/
def wReposC3 : List GoStr := [gs "o/a", gs "o/b", gs "o/c"]

/-- A scrambled completion order for the C3 witness batch. -/
def wOrderC3 : List (Fin wReposC3.length) :=
  [⟨2, by decide⟩, ⟨0, by decide⟩, ⟨1, by decide⟩]

/-- The result list the C3 witness batch produces. -/
def wResC3 : List BatchAnalysisResult :=
  List.ofFn fun j => Batch.mkBatchSlot wPerRepo (wLoadCtx (gs "o")) (wReposC3.get j)

/-- C3 witness: the order-independence theorem applied to the concrete
three-resource batch with a scrambled completion order, checked at index 1. -/
theorem batch_results_in_input_order_witness :
    wResC3.length = wReposC3.length ∧
    (wResC3.getD 1 default).Repository = wReposC3.getD 1 [] :=
  ⟨(batch_results_in_input_order wPerRepo wLoadCtx wReposC3 wOrderC3 wResC3
      (by decide) rfl).1,
   (batch_results_in_input_order wPerRepo wLoadCtx wReposC3 wOrderC3 wResC3
      (by decide) rfl).2 1⟩
